import Mathlib

/-!
Shallow embedding of `src/main.rs` (Advent of Code 2020, day 2).

Strings are modelled as their sequences of Unicode scalar values
(`List Char`), matching Rust's `str::chars()`.  The two `u32` fields of a
policy are modelled as `Nat`; the only place `u32` semantics matter are
  * `(self.first - 1) as usize`: `u32` subtraction, which under the cargo
    default (debug overflow checks) panics on underflow — modelled by a
    checked subtraction returning `Option`;
  * `count as u32`: an `as` cast, which truncates modulo `2^32` in every
    build profile — modelled by `% 2^32`.
Panics are surfaced as `none`; code that cannot panic returns `some`.
-/

namespace Day02

/-- Unicode `White_Space` code points: the set matched by the `regex`
crate's `\s` and trimmed by Rust's `str::trim` (via `char::is_whitespace`). -/
def isRustWhitespace (c : Char) : Bool :=
  c.toNat == 0x9 || c.toNat == 0xA || c.toNat == 0xB || c.toNat == 0xC ||
  c.toNat == 0xD || c.toNat == 0x20 || c.toNat == 0x85 || c.toNat == 0xA0 ||
  c.toNat == 0x1680 || (0x2000 ≤ c.toNat && c.toNat ≤ 0x200A) ||
  c.toNat == 0x2028 || c.toNat == 0x2029 || c.toNat == 0x202F ||
  c.toNat == 0x205F || c.toNat == 0x3000

/-- ASCII decimal digit `0`–`9` (code points 48–57), the characters
accepted by `u32::from_str`.  (The regex `\d` is Unicode-aware, but a
capture containing a non-ASCII digit is rejected by `.parse().ok()?` right
after, so composing the two steps is equivalent to matching ASCII digits
only.) -/
def isAsciiDigit (c : Char) : Bool := 48 ≤ c.toNat && c.toNat ≤ 57

/-- Character class `[a-z]` of the policy regex (code points 97–122). -/
def isLowerAlpha (c : Char) : Bool := 97 ≤ c.toNat && c.toNat ≤ 122

/-- Rust `str::trim`: strip leading and trailing whitespace. -/
def rustTrim (s : List Char) : List Char :=
  ((s.dropWhile isRustWhitespace).reverse.dropWhile isRustWhitespace).reverse

/-- Value of an ASCII-digit string, as computed by `u32::from_str`
(left fold, most significant digit first). -/
def digitsToNat (ds : List Char) : Nat :=
  ds.foldl (fun a c => a * 10 + (c.toNat - '0'.toNat)) 0

/-- Greedy capture of at most `n` leading ASCII digits, returning the
captured digits and the remaining input.  This implements `(\d{1,3})` as it
behaves inside the anchored policy regex: since the character required
right after each digit group (`-`, `\s`) is never itself a digit,
backtracking can never turn a failed greedy match into a success, so the
greedy capture is exact. -/
def takeDigits : Nat → List Char → List Char × List Char
  | 0, s => ([], s)
  | _ + 1, [] => ([], [])
  | n + 1, c :: s =>
    if isAsciiDigit c then
      let (ds, rest) := takeDigits n s
      (c :: ds, rest)
    else ([], c :: s)

/-- Checked `u32` subtraction: under the cargo default build profile
(debug assertions on) an underflowing `-` panics; the panic is modelled
as `none`. -/
def checkedSub (a b : Nat) : Option Nat :=
  if b ≤ a then some (a - b) else none

/-- The struct `PasswordPolicy { pattern: char, first: u32, second: u32 }`. -/
structure PasswordPolicy where
  pattern : Char
  first : Nat
  second : Nat
deriving DecidableEq, Repr

/-- The enum `PasswordPolicyMode` (occurrence-range / positional-xor). -/
inductive PasswordPolicyMode where
  | SledRental
  | TobogganCorporate

/-- Rust `PasswordPolicy::parse`: anchored match of
`^(\d{1,3})-(\d{1,3})\s([a-z])$`, then integer conversion of the two
captures and extraction of the single pattern character. -/
def PasswordPolicy.parse (s : List Char) : Option PasswordPolicy :=
  match takeDigits 3 s with
  | ([], _) => none
  | (ds1, r1) =>
    match r1 with
    | '-' :: r2 =>
      match takeDigits 3 r2 with
      | ([], _) => none
      | (ds2, r3) =>
        match r3 with
        | [w, c] =>
          if isRustWhitespace w && isLowerAlpha c then
            some ⟨c, digitsToNat ds1, digitsToNat ds2⟩
          else none
        | _ => none
    | _ => none

/-- Rust `PasswordPolicy::validate`.  `SledRental` counts occurrences of
the pattern character (`s.matches(self.pattern).count() as u32`, the cast
truncating modulo `2^32`) and checks `first <= count && count <= second`.
`TobogganCorporate` looks up `s.chars().nth((first - 1) as usize)` and the
same for `second` and compares the two `Option<bool>` values
`first_char.map(|c| c == pattern) != second_char.map(|c| c == pattern)`.
The `u32` subtractions panic (here: `none`) when a field is `0`. -/
def PasswordPolicy.validate (p : PasswordPolicy) (mode : PasswordPolicyMode)
    (s : List Char) : Option Bool :=
  match mode with
  | .SledRental =>
    let count := (s.count p.pattern) % 2 ^ 32
    some (decide (p.first ≤ count) && decide (count ≤ p.second))
  | .TobogganCorporate => do
    let i ← checkedSub p.first 1
    let j ← checkedSub p.second 1
    let firstChar := s.get? i
    let secondChar := s.get? j
    some (firstChar.map (fun c => c == p.pattern) !=
          secondChar.map (fun c => c == p.pattern))

/-- The struct `PasswordEntry { policy: PasswordPolicy, password: String }`. -/
structure PasswordEntry where
  policy : PasswordPolicy
  password : List Char
deriving DecidableEq, Repr

/-- Split at the first colon, if any: the two pieces produced by
`s.splitn(2, ":")` when a colon is present. -/
def splitFirstColon : List Char → Option (List Char × List Char)
  | [] => none
  | c :: s =>
    if c = ':' then some ([], s)
    else (splitFirstColon s).map (fun ab => (c :: ab.1, ab.2))

/-- Rust `s.splitn(2, ":").collect::<Vec<_>>()`: one part when the line has
no colon, otherwise the part before the first colon and the rest. -/
def splitnTwoColon (s : List Char) : List (List Char) :=
  match splitFirstColon s with
  | none => [s]
  | some (a, b) => [a, b]

/-- Rust `PasswordEntry::parse`: split on the first colon into at most two
parts, trim and parse the first part as a policy, trim the second part as
the password; any absence aborts with `None`. -/
def PasswordEntry.parse (s : List Char) : Option PasswordEntry := do
  let parts := splitnTwoColon s
  let policy ← PasswordPolicy.parse (rustTrim (← parts.get? 0))
  let password := rustTrim (← parts.get? 1)
  some ⟨policy, password⟩

/-- Rust `PasswordEntry::is_valid` (panic surfaced as `none`). -/
def PasswordEntry.is_valid (e : PasswordEntry) (mode : PasswordPolicyMode) :
    Option Bool :=
  e.policy.validate mode e.password

/-- The parsed database of `main`: parse every line, drop the failures. -/
def database (lines : List (List Char)) : List PasswordEntry :=
  lines.filterMap PasswordEntry.parse

/-- `total` in `main`: number of successfully parsed entries. -/
def totalCount (lines : List (List Char)) : Nat :=
  (database lines).length

/-- `valid` in `main`: entries accepted by `is_valid(TobogganCorporate)`. -/
def validCount (lines : List (List Char)) : Nat :=
  ((database lines).filter
    (fun e => e.is_valid .TobogganCorporate == some true)).length

/-- `invalid` in `main`: `total - valid`. -/
def invalidCount (lines : List (List Char)) : Nat :=
  totalCount lines - validCount lines

/-- Whether evaluating the validator over the database panics: `main`
aborts without printing anything when any entry's `is_valid` panics. -/
def pipelinePanics (lines : List (List Char)) : Bool :=
  (database lines).any (fun e => (e.is_valid .TobogganCorporate).isNone)

/-- The report printed by `main` (`none` when the run panics first). -/
def pipelineReport (lines : List (List Char)) : Option String :=
  if pipelinePanics lines then none
  else
    some ("There are " ++ Nat.repr (validCount lines) ++ " / " ++
          Nat.repr (totalCount lines) ++ " valid passwords (" ++
          Nat.repr (invalidCount lines) ++ " invalid passwords)")

/-- Rust `impl fmt::Display for PasswordPolicy`:
`write!(fmt, "{}-{} {}", self.first, self.second, self.pattern)`. -/
def PasswordPolicy.display (p : PasswordPolicy) : List Char :=
  (Nat.repr p.first).data ++ '-' :: ((Nat.repr p.second).data ++ ' ' :: [p.pattern])

/-- Matching the anchored policy regex `^(\d{1,3})-(\d{1,3})\s([a-z])$`,
stated from the spec's words: one to three digits, a hyphen, one to three
digits, one whitespace character, one lowercase letter, end of input. -/
def matchesPolicyPattern (s : List Char) : Prop :=
  ∃ ds1 ds2 w c, s = ds1 ++ '-' :: (ds2 ++ [w, c]) ∧
    ds1.all isAsciiDigit = true ∧ 1 ≤ ds1.length ∧ ds1.length ≤ 3 ∧
    ds2.all isAsciiDigit = true ∧ 1 ≤ ds2.length ∧ ds2.length ≤ 3 ∧
    isRustWhitespace w = true ∧ isLowerAlpha c = true

/-- Spec-side reading of positional-xor: 1-based position `n` of `s`
"holds the pattern character" `c`; an out-of-bounds position evaluates
to `false` like a present-but-non-matching character. -/
def positionHolds (s : List Char) (n : Nat) (c : Char) : Bool :=
  match s.get? (n - 1) with
  | some d => d == c
  | none => false

/-- Spec-side predicate: 1-based position `n` lies within `s`. -/
def positionInBounds (s : List Char) (n : Nat) : Bool :=
  decide (n ≤ s.length)

/-! ### Helper lemmas -/

theorem takeDigits_sound (n : Nat) (s : List Char) :
    ∀ ds r, takeDigits n s = (ds, r) →
      s = ds ++ r ∧ ds.length ≤ n ∧ ds.all isAsciiDigit = true := by
  induction n generalizing s with
  | zero =>
    intro ds r h
    rw [show takeDigits 0 s = ([], s) from rfl] at h
    injection h with h1 h2
    subst h1; subst h2; simp
  | succ n ih =>
    intro ds r h
    cases s with
    | nil =>
      rw [show takeDigits (n + 1) [] = ([], []) from rfl] at h
      injection h with h1 h2
      subst h1; subst h2; simp
    | cons c t =>
      by_cases hd : isAsciiDigit c
      · rcases e : takeDigits n t with ⟨ds', r'⟩
        rw [show takeDigits (n + 1) (c :: t) =
              (if isAsciiDigit c then
                (c :: (takeDigits n t).1, (takeDigits n t).2)
               else ([], c :: t)) from rfl, if_pos hd, e] at h
        injection h with h1 h2
        subst h1; subst h2
        obtain ⟨ht, hl, ha⟩ := ih t ds' r' e
        refine ⟨by simp [ht], by simpa using Nat.succ_le_succ hl, ?_⟩
        simp [List.all_cons, hd, ha]
      · rw [show takeDigits (n + 1) (c :: t) =
              (if isAsciiDigit c then
                (c :: (takeDigits n t).1, (takeDigits n t).2)
               else ([], c :: t)) from rfl, if_neg hd] at h
        injection h with h1 h2
        subst h1; subst h2; simp

theorem takeDigits_exact (ds : List Char) :
    ∀ (n : Nat) (r : List Char), ds.all isAsciiDigit = true → ds.length ≤ n →
      (∀ c, r.head? = some c → isAsciiDigit c = false) →
      takeDigits n (ds ++ r) = (ds, r) := by
  induction ds with
  | nil =>
    intro n r _ _ hr
    cases n with
    | zero => rfl
    | succ n =>
      cases r with
      | nil => rfl
      | cons c t =>
        have hc : isAsciiDigit c = false := hr c rfl
        show (if isAsciiDigit c then
                (c :: (takeDigits n t).1, (takeDigits n t).2)
              else ([], c :: t)) = ([], c :: t)
        rw [hc]; rfl
  | cons d ds ih =>
    intro n r hall hlen hr
    cases n with
    | zero => simp at hlen
    | succ n =>
      simp only [List.all_cons, Bool.and_eq_true] at hall
      have e : takeDigits n (ds ++ r) = (ds, r) :=
        ih n r hall.2 (by simp only [List.length_cons] at hlen; omega) hr
      show (if isAsciiDigit d then
              (d :: (takeDigits n (ds ++ r)).1, (takeDigits n (ds ++ r)).2)
            else ([], d :: (ds ++ r))) = (d :: ds, r)
      rw [hall.1, e]
      rfl

theorem digits_foldl_lt (ds : List Char) :
    ∀ a : Nat, ds.all isAsciiDigit = true →
      ds.foldl (fun a c => a * 10 + (c.toNat - '0'.toNat)) a <
        (a + 1) * 10 ^ ds.length := by
  induction ds with
  | nil =>
    intro a _
    simp only [List.foldl_nil, List.length_nil, pow_zero, mul_one]
    omega
  | cons d ds ih =>
    intro a hall
    simp only [List.all_cons, Bool.and_eq_true] at hall
    have hd : d.toNat - '0'.toNat ≤ 9 := by
      have h0 := hall.1
      simp only [isAsciiDigit, Bool.and_eq_true, decide_eq_true_iff] at h0
      have : ('0').toNat = 48 := rfl
      omega
    have h := ih (a * 10 + (d.toNat - '0'.toNat)) hall.2
    have hle : (a * 10 + (d.toNat - '0'.toNat) + 1) * 10 ^ ds.length ≤
        ((a + 1) * 10) * 10 ^ ds.length :=
      Nat.mul_le_mul_right _ (by omega)
    simp only [List.foldl_cons, List.length_cons, pow_succ]
    calc (ds.foldl (fun a c => a * 10 + (c.toNat - '0'.toNat))
            (a * 10 + (d.toNat - '0'.toNat)))
        < (a * 10 + (d.toNat - '0'.toNat) + 1) * 10 ^ ds.length := h
      _ ≤ ((a + 1) * 10) * 10 ^ ds.length := hle
      _ = (a + 1) * (10 ^ ds.length * 10) := by ring

theorem digitsToNat_le_999 (ds : List Char) (hall : ds.all isAsciiDigit = true)
    (hlen : ds.length ≤ 3) : digitsToNat ds ≤ 999 := by
  have h := digits_foldl_lt ds 0 hall
  have hp : 10 ^ ds.length ≤ 10 ^ 3 :=
    Nat.pow_le_pow_right (by norm_num) hlen
  simp only [digitsToNat]
  omega

theorem whitespace_not_digit (c : Char) (h : isRustWhitespace c = true) :
    isAsciiDigit c = false := by
  simp only [isRustWhitespace, Bool.or_eq_true, beq_iff_eq,
    Bool.and_eq_true, decide_eq_true_iff] at h
  simp only [isAsciiDigit, Bool.and_eq_true, decide_eq_true_iff,
    Bool.not_eq_true, Bool.and_eq_false_iff, decide_eq_false_iff_not]
  omega

theorem parse_of_shape (ds1 ds2 : List Char) (w c : Char)
    (h1 : ds1.all isAsciiDigit = true) (l1 : 1 ≤ ds1.length) (l1' : ds1.length ≤ 3)
    (h2 : ds2.all isAsciiDigit = true) (l2 : 1 ≤ ds2.length) (l2' : ds2.length ≤ 3)
    (hw : isRustWhitespace w = true) (hc : isLowerAlpha c = true) :
    PasswordPolicy.parse (ds1 ++ '-' :: (ds2 ++ [w, c])) =
      some ⟨c, digitsToNat ds1, digitsToNat ds2⟩ := by
  rcases ds1 with _ | ⟨d1, t1⟩
  · simp at l1
  rcases ds2 with _ | ⟨d2, t2⟩
  · simp at l2
  have e1 : takeDigits 3 ((d1 :: t1) ++ '-' :: ((d2 :: t2) ++ [w, c])) =
      (d1 :: t1, '-' :: ((d2 :: t2) ++ [w, c])) :=
    takeDigits_exact _ _ _ h1 l1'
      (by intro x hx; rw [List.head?_cons] at hx
          injection hx with hx; subst hx; decide)
  have e2 : takeDigits 3 ((d2 :: t2) ++ [w, c]) = (d2 :: t2, [w, c]) :=
    takeDigits_exact _ _ _ h2 l2'
      (by intro x hx; rw [List.head?_cons] at hx
          injection hx with hx; subst hx
          exact whitespace_not_digit w hw)
  simp only [PasswordPolicy.parse, e1, e2, hw, hc]
  simp

theorem parse_shape (s : List Char) (p : PasswordPolicy)
    (h : PasswordPolicy.parse s = some p) :
    ∃ ds1 ds2 w, s = ds1 ++ '-' :: (ds2 ++ [w, p.pattern]) ∧
      ds1.all isAsciiDigit = true ∧ 1 ≤ ds1.length ∧ ds1.length ≤ 3 ∧
      ds2.all isAsciiDigit = true ∧ 1 ≤ ds2.length ∧ ds2.length ≤ 3 ∧
      isRustWhitespace w = true ∧ isLowerAlpha p.pattern = true ∧
      p.first = digitsToNat ds1 ∧ p.second = digitsToNat ds2 := by
  unfold PasswordPolicy.parse at h
  split at h
  · exact absurd h (by simp)
  · rename_i xsc dsA heq0
    split at h
    · split at h
      · exact absurd h (by simp)
      · split at h
        · split at h
          · rename_i xsc1 ds1v r1v r2v xsc2 ds2v hne2 r3v wv cv heq2 hcond
            injection h with h
            subst h
            obtain ⟨hs1, hl1, ha1⟩ := takeDigits_sound 3 s _ _ heq0
            obtain ⟨hs2, hl2, ha2⟩ := takeDigits_sound 3 r2v _ _ heq2
            simp only [Bool.and_eq_true] at hcond
            refine ⟨ds1v, ds2v, wv, ?_, ha1, List.length_pos.mpr dsA, hl1,
              ha2, List.length_pos.mpr hne2, hl2, hcond.1, hcond.2, rfl, rfl⟩
            rw [hs1, hs2]
          · exact absurd h (by simp)
        · exact absurd h (by simp)
    · exact absurd h (by simp)

theorem validate_toboggan_eq (p : PasswordPolicy) (s : List Char)
    (h1 : 1 ≤ p.first) (h2 : 1 ≤ p.second) :
    p.validate .TobogganCorporate s =
      some ((s.get? (p.first - 1)).map (fun c => c == p.pattern) !=
            (s.get? (p.second - 1)).map (fun c => c == p.pattern)) := by
  simp [PasswordPolicy.validate, checkedSub, h1, h2]

theorem positionInBounds_eq_isSome (s : List Char) (n : Nat) (hn : 1 ≤ n) :
    positionInBounds s n = (s.get? (n - 1)).isSome := by
  unfold positionInBounds
  rcases e : s.get? (n - 1) with _ | c
  · rw [List.get?_eq_none] at e
    simp only [Option.isSome_none, decide_eq_false_iff_not]
    omega
  · have hlt : ¬ s.length ≤ n - 1 := fun hle => by
      rw [List.get?_eq_none.mpr hle] at e
      exact Option.noConfusion e
    simp only [Option.isSome_some, decide_eq_true_iff]
    omega

theorem toboggan_iff (p : PasswordPolicy) (s : List Char)
    (h1 : 1 ≤ p.first) (h2 : 1 ≤ p.second) :
    p.validate .TobogganCorporate s = some true ↔
      ((positionHolds s p.first p.pattern).xor
          (positionHolds s p.second p.pattern) = true
       ∨ ((positionInBounds s p.first).xor (positionInBounds s p.second) = true ∧
          positionHolds s p.first p.pattern = false ∧
          positionHolds s p.second p.pattern = false)) := by
  rw [validate_toboggan_eq p s h1 h2,
    positionInBounds_eq_isSome s p.first h1,
    positionInBounds_eq_isSome s p.second h2]
  unfold positionHolds
  rcases e1 : s.get? (p.first - 1) with _ | a <;>
    rcases e2 : s.get? (p.second - 1) with _ | b <;>
      simp only [Option.map_none', Option.map_some', Option.isSome_none,
        Option.isSome_some]
  · simp
  · cases hb : b == p.pattern <;> simp
  · cases ha : a == p.pattern <;> simp
  · cases ha : a == p.pattern <;> cases hb : b == p.pattern <;> simp

theorem positionHolds_eq_false_of_oob (s : List Char) (n : Nat) (c : Char)
    (hn : 1 ≤ n) (h : positionInBounds s n = false) :
    positionHolds s n c = false := by
  unfold positionHolds
  rcases e : s.get? (n - 1) with _ | d
  · rfl
  · rw [positionInBounds_eq_isSome s n hn, e] at h
    exact absurd h (by simp)

/-! ### Claim theorems -/

/-- Claim C1, counterexample.  The claim says that in positional-xor mode an
out-of-bounds position is treated identically to a non-matching character,
so that with policy `1-2 a` and password `"b"` (position 1 holds `'b'`,
position 2 out of bounds) the result should be `false`.  The code compares
the two `Option<bool>` lookups with `!=`, and `Some(false) != None`, so it
returns `true`. -/
theorem positional_xor_oob_counterexample :
    (PasswordPolicy.mk 'a' 1 2).validate .TobogganCorporate ['b'] = some true ∧
    (positionHolds ['b'] 1 'a').xor (positionHolds ['b'] 2 'a') = false := by
  decide

/-- Claim C1, amended.  In positional-xor mode, for a policy whose fields are
both at least 1, `validate` returns `true` iff exactly one of the two 1-based
positions holds the pattern character, or exactly one of the two positions is
out of bounds and neither position holds the pattern character (an absent
lookup compares unequal to a present non-matching one). -/
theorem positional_xor_amended (p : PasswordPolicy) (s : List Char)
    (h1 : 1 ≤ p.first) (h2 : 1 ≤ p.second) :
    p.validate .TobogganCorporate s = some true ↔
      ((positionHolds s p.first p.pattern).xor
          (positionHolds s p.second p.pattern) = true
       ∨ ((positionInBounds s p.first).xor (positionInBounds s p.second) = true ∧
          positionHolds s p.first p.pattern = false ∧
          positionHolds s p.second p.pattern = false)) :=
  toboggan_iff p s h1 h2

/-- Witness for the amended claim C1 at policy `1-3 a`, password `"abcde"`. -/
theorem positional_xor_amended_witness :
    (PasswordPolicy.mk 'a' 1 3).validate .TobogganCorporate ("abcde".data) =
      some true :=
  (positional_xor_amended ⟨'a', 1, 3⟩ ("abcde".data) (by decide) (by decide)).mpr
    (Or.inl (by decide))

/-- Claim C2, counterexample.  The Policy Parser accepts `"0-1 a"` and
produces a policy with `first = 0`; evaluating that policy in positional-xor
mode computes `(0u32 - 1) as usize`, and the `u32` subtraction underflows,
which panics under the cargo default build profile (modelled as `none`). -/
theorem validate_no_panic_counterexample :
    PasswordPolicy.parse ("0-1 a".data) = some ⟨'a', 0, 1⟩ ∧
    (PasswordPolicy.mk 'a' 0 1).validate .TobogganCorporate ("b".data) = none := by
  decide

/-- Claim C2, amended.  For every parser-produced policy whose `first` and
`second` are both at least 1, positional-xor validation never panics: it
always returns a boolean, an out-of-range position being handled via an
absent lookup rather than an error. -/
theorem validate_no_panic_amended (t s : List Char) (p : PasswordPolicy)
    (_hp : PasswordPolicy.parse t = some p)
    (h1 : 1 ≤ p.first) (h2 : 1 ≤ p.second) :
    (p.validate .TobogganCorporate s).isSome = true := by
  rw [validate_toboggan_eq p s h1 h2]
  rfl

/-- Witness for the amended claim C2 at `"1-2 a"` and password `"xyz"`. -/
theorem validate_no_panic_amended_witness :
    ((PasswordPolicy.mk 'a' 1 2).validate .TobogganCorporate
      ("xyz".data)).isSome = true :=
  validate_no_panic_amended ("1-2 a".data) ("xyz".data) ⟨'a', 1, 2⟩
    (by decide) (by decide) (by decide)

/-- Claim C10.  With both policy fields at least 1, if exactly one of the two
1-based positions lies within the password and the in-bounds position does
not hold the pattern character, positional-xor validation returns `true`:
the absent lookup differs from the present non-matching one. -/
theorem positional_oob_mismatch_true (p : PasswordPolicy) (s : List Char)
    (h1 : 1 ≤ p.first) (h2 : 1 ≤ p.second)
    (hx : (positionInBounds s p.first).xor (positionInBounds s p.second) = true)
    (hf : positionInBounds s p.first = true →
      positionHolds s p.first p.pattern = false)
    (hs : positionInBounds s p.second = true →
      positionHolds s p.second p.pattern = false) :
    p.validate .TobogganCorporate s = some true := by
  have hf' : positionHolds s p.first p.pattern = false := by
    cases hb : positionInBounds s p.first
    · exact positionHolds_eq_false_of_oob s p.first p.pattern h1 hb
    · exact hf hb
  have hs' : positionHolds s p.second p.pattern = false := by
    cases hb : positionInBounds s p.second
    · exact positionHolds_eq_false_of_oob s p.second p.pattern h2 hb
    · exact hs hb
  exact (toboggan_iff p s h1 h2).mpr (Or.inr ⟨hx, hf', hs'⟩)

/-- Witness for claim C10 at policy `1-5 a`, password `"bcd"`: position 1
holds `'b' ≠ 'a'`, position 5 is out of bounds, and the result is `true`. -/
theorem positional_oob_mismatch_true_witness :
    (PasswordPolicy.mk 'a' 1 5).validate .TobogganCorporate ("bcd".data) =
      some true :=
  positional_oob_mismatch_true ⟨'a', 1, 5⟩ ("bcd".data) (by decide) (by decide)
    (by decide) (by decide) (by decide)

set_option maxRecDepth 10000 in
set_option maxHeartbeats 2000000 in
theorem repr_digits_lt_1000 : ∀ n < 1000,
    (Nat.repr n).data.all isAsciiDigit = true ∧ 1 ≤ (Nat.repr n).data.length ∧
    (Nat.repr n).data.length ≤ 3 ∧ digitsToNat (Nat.repr n).data = n := by
  decide

/-- Claim C3, counterexample.  The string `"01-1 a"` has 1-to-3-digit
substrings `"01"` and `"1"` and a lowercase letter, so it is in the claim's
scope; it parses to the policy `{first := 1, second := 1, pattern := 'a'}`,
which renders back as `"1-1 a"`, not the original string: leading zeros are
not round-tripped. -/
theorem policy_roundtrip_counterexample :
    PasswordPolicy.parse ("01-1 a".data) = some ⟨'a', 1, 1⟩ ∧
    PasswordPolicy.display ⟨'a', 1, 1⟩ ≠ "01-1 a".data := by
  decide

/-- Claim C3, amended.  For every policy string `"a-b c"` in which `a` and
`b` are the canonical decimal representations of numbers below 1000 (1-to-3
digit substrings without redundant leading zeros) and `c` is a lowercase
letter, parsing and then rendering reproduces the original string exactly. -/
theorem policy_roundtrip_amended (n m : Nat) (c : Char)
    (hn : n < 1000) (hm : m < 1000) (hc : isLowerAlpha c = true) :
    (PasswordPolicy.parse (PasswordPolicy.display ⟨c, n, m⟩)).map
      PasswordPolicy.display = some (PasswordPolicy.display ⟨c, n, m⟩) := by
  obtain ⟨ha1, hl1, hl1', hv1⟩ := repr_digits_lt_1000 n hn
  obtain ⟨ha2, hl2, hl2', hv2⟩ := repr_digits_lt_1000 m hm
  have hdisp : PasswordPolicy.display ⟨c, n, m⟩ =
      (Nat.repr n).data ++ '-' :: ((Nat.repr m).data ++ [' ', c]) := rfl
  rw [hdisp, parse_of_shape _ _ _ _ ha1 hl1 hl1' ha2 hl2 hl2' (by decide) hc,
    Option.map_some', hv1, hv2]
  exact congrArg some hdisp

/-- Witness for the amended claim C3 at the policy string `"1-3 a"`. -/
theorem policy_roundtrip_amended_witness :
    (PasswordPolicy.parse (PasswordPolicy.display ⟨'a', 1, 3⟩)).map
      PasswordPolicy.display = some (PasswordPolicy.display ⟨'a', 1, 3⟩) :=
  policy_roundtrip_amended 1 3 'a' (by decide) (by decide) (by decide)

/-- Claim C4, counterexample.  `s.matches(pattern).count() as u32` truncates
the occurrence count modulo `2^32`; a password of `2^32` copies of `'a'`
against policy `0-0 a` is reported valid although its occurrence count does
not lie in `[0, 0]`. -/
theorem validate_sled_count (p : PasswordPolicy) (s : List Char) (n : Nat)
    (h : s.count p.pattern = n) :
    p.validate .SledRental s =
      some (decide (p.first ≤ n % 2 ^ 32) && decide (n % 2 ^ 32 ≤ p.second)) := by
  subst h
  rfl

theorem occurrence_range_counterexample :
    (PasswordPolicy.mk 'a' 0 0).validate .SledRental
      (List.replicate (2 ^ 32) 'a') = some true ∧
    ¬ ((List.replicate (2 ^ 32) 'a').count 'a' ≤ 0) := by
  constructor
  · exact (validate_sled_count ⟨'a', 0, 0⟩ _ (2 ^ 32)
      (List.count_replicate_self 'a' (2 ^ 32))).trans (by norm_num)
  · have hpos : 0 < (List.replicate (2 ^ 32) 'a').count 'a' :=
      List.count_pos_iff.mpr (List.mem_replicate.mpr ⟨by norm_num, rfl⟩)
    omega

/-- Claim C4, amended.  In occurrence-range mode, for every password whose
occurrence count of the pattern character is below `2^32` (so the `as u32`
cast is lossless), `validate` returns `true` iff the count lies in the
closed interval `[first, second]`; zero occurrences is valid when `first`
is 0. -/
theorem occurrence_range_amended (p : PasswordPolicy) (s : List Char)
    (h : s.count p.pattern < 2 ^ 32) :
    p.validate .SledRental s = some true ↔
      p.first ≤ s.count p.pattern ∧ s.count p.pattern ≤ p.second := by
  have h2 : s.count p.pattern % 2 ^ 32 = s.count p.pattern := Nat.mod_eq_of_lt h
  simp only [PasswordPolicy.validate, h2, Option.some.injEq, Bool.and_eq_true,
    decide_eq_true_eq]

/-- Witness for the amended claim C4 at policy `1-3 a`, password `"abcde"`. -/
theorem occurrence_range_amended_witness :
    (PasswordPolicy.mk 'a' 1 3).validate .SledRental ("abcde".data) =
      some true :=
  (occurrence_range_amended ⟨'a', 1, 3⟩ ("abcde".data) (by decide)).mpr
    ⟨by decide, by decide⟩

/-- Claim C5.  The Entry Parser splits a line on the first colon into at
most two parts; with no colon, or when the trimmed first part fails to
parse as a policy, it returns absence, and such a line contributes to
neither the total nor the valid count; otherwise the entry holds the policy
parsed from the trimmed first part and the trimmed second part as
password. -/
theorem entry_parse_contract (s : List Char) :
    (PasswordEntry.parse s =
      match splitFirstColon s with
      | none => none
      | some (p0, p1) =>
        (PasswordPolicy.parse (rustTrim p0)).map
          (fun pol => ⟨pol, rustTrim p1⟩)) ∧
    (PasswordEntry.parse s = none → ∀ rest : List (List Char),
      totalCount (s :: rest) = totalCount rest ∧
      validCount (s :: rest) = validCount rest) := by
  constructor
  · rcases hsplit : splitFirstColon s with _ | ⟨p0, p1⟩
    · rcases e : PasswordPolicy.parse (rustTrim s) with _ | pol <;>
        simp [PasswordEntry.parse, splitnTwoColon, hsplit, e]
    · rcases e : PasswordPolicy.parse (rustTrim p0) with _ | pol <;>
        simp [PasswordEntry.parse, splitnTwoColon, hsplit, e]
  · intro h rest
    simp [totalCount, validCount, database, List.filterMap_cons, h]

/-- Witness for claim C5 at the colon-free line `"1-3 a"` (its policy
segment parses, but with no colon the line yields no entry and contributes
to neither count). -/
theorem entry_parse_contract_witness :
    totalCount ["1-3 a".data] = totalCount [] ∧
    validCount ["1-3 a".data] = validCount [] :=
  (entry_parse_contract ("1-3 a".data)).2 (by decide) []

/-- Claim C6.  The Policy Parser returns absence (never an error) on every
string that does not match `^(\d{1,3})-(\d{1,3})\s([a-z])$`; in particular
`""`, `"1- a"` and `"abc"` all yield no policy.  (Stated in the
contrapositive: a successful parse implies the string matches the
pattern.) -/
theorem policy_parse_absence :
    (∀ s : List Char, PasswordPolicy.parse s ≠ none → matchesPolicyPattern s) ∧
    PasswordPolicy.parse ("".data) = none ∧
    PasswordPolicy.parse ("1- a".data) = none ∧
    PasswordPolicy.parse ("abc".data) = none := by
  refine ⟨?_, by decide, by decide, by decide⟩
  intro s hne
  rcases e : PasswordPolicy.parse s with _ | p
  · exact absurd e hne
  · obtain ⟨ds1, ds2, w, hshape, ha1, hl1, hl1', ha2, hl2, hl2', hw, hc, _, _⟩ :=
      parse_shape s p e
    exact ⟨ds1, ds2, w, p.pattern, hshape, ha1, hl1, hl1', ha2, hl2, hl2', hw, hc⟩

/-- Witness for claim C6: `"1-3 a"` parses, hence matches the pattern. -/
theorem policy_parse_absence_witness : matchesPolicyPattern ("1-3 a".data) :=
  policy_parse_absence.1 ("1-3 a".data) (by decide)

/-- Claim C7, counterexample.  On the single line `"0-1 a: b"` the entry
parses (total is 1), but evaluating the validator underflows `first - 1`
and the program panics before printing, so no report of the claimed form is
produced. -/
theorem report_shape_counterexample :
    totalCount ["0-1 a: b".data] = 1 ∧
    pipelineReport ["0-1 a: b".data] = none := by
  decide

/-- Claim C7, amended.  Whenever no parsed entry panics the validator (in
particular whenever every parsed policy has nonzero fields), the report is
exactly `There are <valid> / <total> valid passwords (<invalid> invalid
passwords)` and `valid + invalid = total`. -/
theorem report_shape_amended (lines : List (List Char))
    (h : pipelinePanics lines = false) :
    pipelineReport lines =
      some ("There are " ++ Nat.repr (validCount lines) ++ " / " ++
            Nat.repr (totalCount lines) ++ " valid passwords (" ++
            Nat.repr (invalidCount lines) ++ " invalid passwords)") ∧
    validCount lines + invalidCount lines = totalCount lines := by
  constructor
  · simp [pipelineReport, h]
  · have hle : validCount lines ≤ totalCount lines :=
      List.length_filter_le _ (database lines)
    simp only [invalidCount]
    omega

/-- Witness for the amended claim C7 on the three example lines. -/
theorem report_shape_amended_witness :
    pipelineReport ["1-3 a: abcde".data, "1-3 b: cdefg".data,
      "2-9 c: ccccccccc".data] =
      some "There are 1 / 3 valid passwords (2 invalid passwords)" := by
  have h := report_shape_amended
    ["1-3 a: abcde".data, "1-3 b: cdefg".data, "2-9 c: ccccccccc".data]
    (by decide)
  rw [h.1]
  rfl

/-- Claim C8.  Every successfully parsed policy has `first` and `second`
between 0 and 999 (they come from 1-to-3-digit substrings; the lower bound
is inherent to the `Nat` embedding of `u32`), and no ordering between the
two fields is enforced: `"9-1 a"` is accepted with `first > second`. -/
theorem policy_fields_bounded :
    (∀ (s : List Char) (p : PasswordPolicy), PasswordPolicy.parse s = some p →
      p.first ≤ 999 ∧ p.second ≤ 999) ∧
    PasswordPolicy.parse ("9-1 a".data) = some ⟨'a', 9, 1⟩ := by
  refine ⟨?_, by decide⟩
  intro s p h
  obtain ⟨ds1, ds2, w, _, ha1, _, hl1', ha2, _, hl2', _, _, hf, hs⟩ :=
    parse_shape s p h
  exact ⟨hf ▸ digitsToNat_le_999 ds1 ha1 hl1',
    hs ▸ digitsToNat_le_999 ds2 ha2 hl2'⟩

/-- Witness for claim C8 at the parsed policy of `"9-1 a"`. -/
theorem policy_fields_bounded_witness :
    (PasswordPolicy.mk 'a' 9 1).first ≤ 999 ∧
    (PasswordPolicy.mk 'a' 9 1).second ≤ 999 :=
  policy_fields_bounded.1 ("9-1 a".data) ⟨'a', 9, 1⟩ (by decide)

/-- Claim C9.  Permuting the input lines changes none of the three counts:
parsing is per-line and the counts are sizes of filtered multisets. -/
theorem pipeline_order_invariant (l1 l2 : List (List Char)) (h : l1.Perm l2) :
    validCount l1 = validCount l2 ∧ totalCount l1 = totalCount l2 ∧
    invalidCount l1 = invalidCount l2 := by
  have hdb : (database l1).Perm (database l2) := h.filterMap _
  have hv : validCount l1 = validCount l2 := (hdb.filter _).length_eq
  have ht : totalCount l1 = totalCount l2 := hdb.length_eq
  exact ⟨hv, ht, by simp only [invalidCount, hv, ht]⟩

/-- Witness for claim C9 on a two-line input and its swap. -/
theorem pipeline_order_invariant_witness :
    validCount ["1-3 a: abcde".data, "2-9 c: ccccccccc".data] =
      validCount ["2-9 c: ccccccccc".data, "1-3 a: abcde".data] ∧
    totalCount ["1-3 a: abcde".data, "2-9 c: ccccccccc".data] =
      totalCount ["2-9 c: ccccccccc".data, "1-3 a: abcde".data] ∧
    invalidCount ["1-3 a: abcde".data, "2-9 c: ccccccccc".data] =
      invalidCount ["2-9 c: ccccccccc".data, "1-3 a: abcde".data] :=
  pipeline_order_invariant _ _ (List.Perm.swap _ _ _)

end Day02
